import Mathlib

/-
Verification development for the Ridetrack server (server.js).

The JavaScript source is embedded shallowly:
 * strings are List Char; machine floats produced by parseFloat on the
   digit/comma/dot strings that occur here are modelled exactly as rationals;
 * the JavaScript regular expressions used by the receipt routines are
   embedded via a small backtracking matcher (RE / reMat / reFirstMatch)
   that mirrors the backtracking search order of the JS engine: leftmost
   start position first, greedy and lazy quantifiers expanding in the
   JS order, alternatives left to right;
 * the sqlite database is a record of user rows and ride rows; statement
   callbacks always run without driver errors, and binding a value stores
   it unchanged;
 * the MailParser step is an external library: processEmail takes the
   parsed mail (from, subject, text, html) it produces, next to the raw
   email blob.
-/

set_option autoImplicit false

namespace Ridetrack

/-! ## Characters and strings -/

/-- ASCII model of the JavaScript toLowerCase used on sender, subject and
month names (all comparisons in the source involve ASCII letters only). -/
def jsLower (s : List Char) : List Char := s.map Char.toLower

/-- If t is a prefix of s, strip it and return the rest. -/
def stripPre : List Char → List Char → Option (List Char)
  | [], s => some s
  | _ :: _, [] => none
  | a :: p, b :: s => if a = b then stripPre p s else none

/-- Case-insensitive version of stripPre (ASCII folding, patterns are
given lowercased). -/
def stripPreCI : List Char → List Char → Option (List Char)
  | [], s => some s
  | _ :: _, [] => none
  | a :: p, b :: s => if a.toLower = b.toLower then stripPreCI p s else none

/-- JavaScript String.prototype.includes. -/
def containsSub : List Char → List Char → Bool
  | [], t => t.isEmpty
  | s@(_ :: rest), t => (stripPre t s).isSome || containsSub rest t

/-- The whitespace class of JavaScript regular expressions (and of trim). -/
def isJsSpace (c : Char) : Bool :=
  let n := c.toNat
  n == 32 || n == 9 || n == 10 || n == 13 || n == 11 || n == 12 ||
  n == 160 || n == 0x1680 || (decide (0x2000 ≤ n) && decide (n ≤ 0x200a)) ||
  n == 0x2028 || n == 0x2029 || n == 0x202f || n == 0x205f ||
  n == 0x3000 || n == 0xfeff

/-- JavaScript String.prototype.trim. -/
def trimJs (s : List Char) : List Char :=
  ((s.dropWhile isJsSpace).reverse.dropWhile isJsSpace).reverse

/-- The regex word class backslash-w. -/
def isWordCh (c : Char) : Bool := c.isAlphanum || c == '_'

def isDigitOrComma (c : Char) : Bool := c.isDigit || c == ','

def isDotCh (c : Char) : Bool := c == '.'

/-- The dot class without the s flag: any char except line terminators. -/
def dotNoNl (c : Char) : Bool :=
  !(c == '\n' || c == '\r' || c.toNat == 0x2028 || c.toNat == 0x2029)

/-- The dot class under the s flag: any char. -/
def dotAll (_ : Char) : Bool := true

/-! ## A small backtracking regex matcher

Exactly the constructs appearing in server.js: literals (optionally
case-insensitive), single-char classes, greedy star/plus/option over a
class, lazy plus over a class, greedy bounded repetition over a class,
sequencing, alternation, capture groups (none nested in the source),
and the end-of-input anchor. -/

inductive RE where
  | eps
  | lit (t : List Char)
  | litCI (t : List Char)
  | cls (p : Char → Bool)
  | starG (p : Char → Bool)
  | plusG (p : Char → Bool)
  | plusL (p : Char → Bool)
  | optG (p : Char → Bool)
  | repRange (p : Char → Bool) (lo hi : Nat)
  | seq (a b : RE)
  | alt (a b : RE)
  | grp (r : RE)
  | eos

/-- Continuation-passing backtracking matcher. The continuation receives
the unconsumed suffix and the captures accumulated so far; quantifier
cases enumerate candidate split points in the JS backtracking order. -/
def reMat : RE → List Char → List (List Char) →
    (List Char → List (List Char) → Option (List (List Char))) →
    Option (List (List Char))
  | RE.eps, s, caps, k => k s caps
  | RE.lit t, s, caps, k =>
    match stripPre t s with
    | some s2 => k s2 caps
    | none => none
  | RE.litCI t, s, caps, k =>
    match stripPreCI t s with
    | some s2 => k s2 caps
    | none => none
  | RE.cls p, s, caps, k =>
    match s with
    | c :: s2 => if p c then k s2 caps else none
    | [] => none
  | RE.starG p, s, caps, k =>
    let n := (s.takeWhile p).length
    ((List.range (n + 1)).reverse).findSome? (fun j => k (s.drop j) caps)
  | RE.plusG p, s, caps, k =>
    let n := (s.takeWhile p).length
    (((List.range n).reverse).map (fun j => j + 1)).findSome?
      (fun j => k (s.drop j) caps)
  | RE.plusL p, s, caps, k =>
    let n := (s.takeWhile p).length
    ((List.range n).map (fun j => j + 1)).findSome? (fun j => k (s.drop j) caps)
  | RE.optG p, s, caps, k =>
    match s with
    | c :: s2 => if p c then (k s2 caps) <|> (k s caps) else k s caps
    | [] => k s caps
  | RE.repRange p lo hi, s, caps, k =>
    let n := (s.takeWhile p).length
    let mi := min n hi
    ((List.range (mi + 1 - lo)).map (fun i => mi - i)).findSome?
      (fun j => k (s.drop j) caps)
  | RE.seq a b, s, caps, k => reMat a s caps (fun s2 caps2 => reMat b s2 caps2 k)
  | RE.alt a b, s, caps, k => (reMat a s caps k) <|> (reMat b s caps k)
  | RE.grp r, s, caps, k =>
    reMat r s caps (fun s2 caps2 => k s2 (caps2 ++ [s.take (s.length - s2.length)]))
  | RE.eos, s, caps, k => if s.isEmpty then k s caps else none

/-- First match, scanning start positions left to right (the semantics of
String.prototype.match with a non-global regex); returns the list of
captured groups on success. -/
def reFirstMatch (r : RE) : List Char → Option (List (List Char))
  | [] => reMat r [] [] (fun _ caps => some caps)
  | s@(_ :: rest) => (reMat r s [] (fun _ caps => some caps)) <|> reFirstMatch r rest

def seqList (rs : List RE) : RE := rs.foldr RE.seq RE.eps

def cap1 : Option (List (List Char)) → Option (List Char)
  | some (c :: _) => some c
  | _ => none

def cap2 : Option (List (List Char)) → Option (List Char)
  | some (_ :: c :: _) => some c
  | _ => none

/-! ## Numbers -/

def digitsToNat (cs : List Char) : Nat :=
  cs.foldl (fun a c => 10 * a + (c.toNat - 48)) 0

/-- The coercion applied by the Date constructor to the all-digit strings
captured by the date regexes. -/
def natOf (cs : List Char) : Int := (digitsToNat cs : Int)

/-- JavaScript String.prototype.replace with pattern a comma: replaces only
the first occurrence. -/
def replaceFirstComma : List Char → List Char
  | [] => []
  | c :: rest => if c = ',' then '.' :: rest else c :: replaceFirstComma rest

/-- The exact rational denoted by the decimal numeral with integer part
d1 and fractional part d2 (as digit strings). -/
def decValue (d1 d2 : List Char) : ℚ :=
  mkRat (digitsToNat d1 * 10 ^ d2.length + digitsToNat d2 : Int) (10 ^ d2.length)

/-- JavaScript parseFloat, restricted to the strings reaching it here
(digits, dots and commas — no sign, no exponent, no leading space):
longest numeric prefix of the form digits [ dot digits ]; NaN is none.
The decimal numeral denotes an exact rational in this model. -/
def jsParseFloat (cs : List Char) : Option ℚ :=
  let d1 := cs.takeWhile Char.isDigit
  match cs.dropWhile Char.isDigit with
  | '.' :: rest2 =>
    let d2 := rest2.takeWhile Char.isDigit
    if d1.isEmpty && d2.isEmpty then none
    else some (decValue d1 d2)
  | _ => if d1.isEmpty then none else some (decValue d1 [])

/-- JavaScript truthiness of ride.value: undefined (none), NaN (folded
into none by jsParseFloat) and 0 are falsy. -/
def truthyVal : Option ℚ → Bool
  | some v => decide (v ≠ 0)
  | none => false

/-! ## The concrete regular expressions of server.js -/

/-- Embedding of the value regex of both receipt routines (flag i). -/
def valueRE : RE :=
  seqList [RE.litCI ("r$".toList), RE.starG isJsSpace,
    RE.grp (seqList [RE.plusG isDigitOrComma, RE.optG isDotCh,
      RE.starG Char.isDigit])]

/-- Embedding of the Uber route regex (flags i and s; dot crosses lines). -/
def uberRouteRE : RE :=
  seqList [RE.alt (RE.litCI ("de".toList)) (RE.litCI ("from".toList)),
    RE.lit (":".toList), RE.starG isJsSpace, RE.grp (RE.plusL dotAll),
    RE.starG isJsSpace,
    RE.alt (RE.litCI ("para".toList)) (RE.litCI ("to".toList)),
    RE.lit (":".toList), RE.starG isJsSpace, RE.grp (RE.plusL dotAll),
    RE.alt (RE.lit ("\n".toList)) RE.eos]

/-- Embedding of the Uber textual date regex (flag i). -/
def uberDateRE : RE :=
  seqList [RE.grp (RE.repRange Char.isDigit 1 2), RE.plusG isJsSpace,
    RE.litCI ("de".toList), RE.plusG isJsSpace, RE.grp (RE.plusG isWordCh),
    RE.plusG isJsSpace, RE.litCI ("de".toList), RE.plusG isJsSpace,
    RE.grp (RE.repRange Char.isDigit 4 4)]

/-- Embedding of the 99 origin regex (flag i, no s flag). -/
def origin99RE : RE :=
  seqList [RE.alt (RE.litCI ("origem".toList)) (RE.litCI ("partida".toList)),
    RE.lit (":".toList), RE.starG isJsSpace, RE.grp (RE.plusL dotNoNl),
    RE.alt (RE.lit ("\n".toList)) RE.eos]

/-- Embedding of the 99 destination regex (flag i, no s flag). -/
def dest99RE : RE :=
  seqList [RE.alt (RE.litCI ("destino".toList)) (RE.litCI ("chegada".toList)),
    RE.lit (":".toList), RE.starG isJsSpace, RE.grp (RE.plusL dotNoNl),
    RE.alt (RE.lit ("\n".toList)) RE.eos]

/-- Embedding of the 99 numeric date regex (no flags). -/
def date99RE : RE :=
  seqList [RE.grp (RE.repRange Char.isDigit 1 2), RE.lit ("/".toList),
    RE.grp (RE.repRange Char.isDigit 1 2), RE.lit ("/".toList),
    RE.grp (RE.repRange Char.isDigit 4 4)]

/-- The first value match of a body, as the captured numeral. -/
def valueCapture (s : List Char) : Option (List Char) :=
  cap1 (reFirstMatch valueRE s)

/-! ## Dates

A JavaScript Date is modelled by the arguments handed to the multi-argument
constructor (after its two-digit-year adjustment): year, zero-based month
index and day, each an arbitrary integer, or Invalid Date when a component
was NaN. The host normalizes out-of-range components by rollover when the
time value is read; monthYear below performs that normalization. -/

inductive JSDate where
  | mk (year month day : Int)
  | invalid
deriving DecidableEq

/-- The multi-argument Date constructor on numeric arguments: years 0..99
denote 1900..1999; no component validation happens. -/
def jsNewDate (y m d : Int) : JSDate :=
  JSDate.mk (if 0 ≤ y ∧ y ≤ 99 then y + 1900 else y) m d

/-- Serial day number of the first day of month m (1..12) of year y,
proleptic Gregorian, epoch 1970-01-01. -/
def daysFromCivilM1 (y m : Int) : Int :=
  let y2 := if m ≤ 2 then y - 1 else y
  let era := Int.ediv y2 400
  let yoe := y2 - era * 400
  let mN := if 2 < m then m - 3 else m + 9
  let doy := Int.ediv (153 * mN + 2) 5
  let doe := yoe * 365 + Int.ediv yoe 4 - Int.ediv yoe 100 + doy
  era * 146097 + doe - 719468

/-- Inverse of the serial day number: (year, month 1..12, day 1..31). -/
def civilFromDays (z0 : Int) : Int × Int × Int :=
  let z := z0 + 719468
  let era := Int.ediv z 146097
  let doe := z - era * 146097
  let yoe := Int.ediv (doe - Int.ediv doe 1460 + Int.ediv doe 36524 -
    Int.ediv doe 146096) 365
  let y := yoe + era * 400
  let doy := doe - (365 * yoe + Int.ediv yoe 4 - Int.ediv yoe 100)
  let mp := Int.ediv (5 * doy + 2) 153
  let d := doy - Int.ediv (153 * mp + 2) 5 + 1
  let m := if mp < 10 then mp + 3 else mp - 9
  (if m ≤ 2 then y + 1 else y, m, d)

/-- getMonth and getFullYear of a Date: none on Invalid Date (their NaN
makes every strict equality false), otherwise the rollover-normalized
zero-based month and year. -/
def JSDate.monthYear : JSDate → Option (Int × Int)
  | JSDate.invalid => none
  | JSDate.mk y m d =>
    let ym := y + Int.ediv m 12
    let mn := Int.emod m 12
    let days := daysFromCivilM1 ym (mn + 1) + (d - 1)
    let (yy, mm, _) := civilFromDays days
    some (mm - 1, yy)

def isLeapYear (y : Int) : Bool :=
  (Int.emod y 4 == 0 && Int.emod y 100 != 0) || Int.emod y 400 == 0

def daysInMonth (y m : Int) : Int :=
  if m == 2 then (if isLeapYear y then 29 else 28)
  else if m == 4 || m == 6 || m == 9 || m == 11 then 30
  else 31

/-- Model of the host Date constructor on a string, for the calendar-date
ISO form YYYY-MM-DD that reaches it from manual entry; any other shape
is modelled as Invalid Date (beyond ISO, string parsing is
implementation-defined in JavaScript). -/
def jsDateOfString (s : List Char) : JSDate :=
  match s with
  | [y1, y2, y3, y4, a1, n1, n2, a2, e1, e2] =>
    if y1.isDigit && y2.isDigit && y3.isDigit && y4.isDigit && a1 == '-' &&
        n1.isDigit && n2.isDigit && a2 == '-' && e1.isDigit && e2.isDigit then
      let y : Int := (digitsToNat [y1, y2, y3, y4] : Int)
      let m : Int := (digitsToNat [n1, n2] : Int)
      let d : Int := (digitsToNat [e1, e2] : Int)
      if 1 ≤ m ∧ m ≤ 12 ∧ 1 ≤ d ∧ d ≤ daysInMonth y m then JSDate.mk y (m - 1) d
      else JSDate.invalid
    else JSDate.invalid
  | _ => JSDate.invalid

/-- The datetime column of the rides table holds whatever value was bound:
a Date object (webhook pipeline, and manual entry defaults) or the raw
string of a manual request body. -/
inductive DBDateTime where
  | date (d : JSDate)
  | str (s : List Char)
deriving DecidableEq

/-- The new Date(r.datetime) conversion performed by the stats route. -/
def jsDateOfValue : DBDateTime → JSDate
  | DBDateTime.date j => j
  | DBDateTime.str s => jsDateOfString s

/-! ## Receipt routines -/

def uberTag : List Char := "uber".toList

def tag99 : List Char := "99".toList

/-- The candidate record built by a receipt routine before user
resolution: platform always set, every other field best effort. -/
structure ParsedRide where
  platform : List Char
  value : Option ℚ
  origin : Option (List Char)
  destination : Option (List Char)
  datetime : Option JSDate
deriving DecidableEq

/-- Shared value extraction of both receipt routines: match the value
regex against text, falling back to html, then parseFloat the captured
numeral with its first comma replaced by a dot. -/
def extractValue (text html : List Char) : Option ℚ :=
  match valueCapture text <|> valueCapture html with
  | some cap => jsParseFloat (replaceFirstComma cap)
  | none => none

/-- The month-name table of parseUberReceipt (zero-based indices). -/
def monthsTable : List (List Char × Int) :=
  [("janeiro".toList, 0), ("fevereiro".toList, 1), ("março".toList, 2),
   ("abril".toList, 3), ("maio".toList, 4), ("junho".toList, 5),
   ("julho".toList, 6), ("agosto".toList, 7), ("setembro".toList, 8),
   ("outubro".toList, 9), ("novembro".toList, 10), ("dezembro".toList, 11)]

def lookupMonth (m : List Char) : Option Int :=
  (monthsTable.find? (fun p => p.1 == m)).map (fun p => p.2)

/-- Date extraction of parseUberReceipt: on a match of the textual date
regex, an unrecognized month name makes the month undefined, so the
constructed Date is Invalid — the field is still assigned. -/
def uberDate (text : List Char) : Option JSDate :=
  match reFirstMatch uberDateRE text with
  | some (d :: mo :: y :: _) =>
    some (match lookupMonth (jsLower mo) with
      | some mi => jsNewDate (natOf y) mi (natOf d)
      | none => JSDate.invalid)
  | _ => none

/-- parseUberReceipt of server.js. -/
def parseUberReceipt (text html : List Char) : Option ParsedRide :=
  let value := extractValue text html
  let route := reFirstMatch uberRouteRE text
  let ride : ParsedRide :=
    { platform := uberTag, value := value,
      origin := (cap1 route).map trimJs, destination := (cap2 route).map trimJs,
      datetime := uberDate text }
  if truthyVal value then some ride else none

/-- Date extraction of parse99Receipt: positional day/month/year with no
range validation; new Date(year, month - 1, day). -/
def date99 (text : List Char) : Option JSDate :=
  match reFirstMatch date99RE text with
  | some (d :: mo :: y :: _) => some (jsNewDate (natOf y) (natOf mo - 1) (natOf d))
  | _ => none

/-- parse99Receipt of server.js. -/
def parse99Receipt (text html : List Char) : Option ParsedRide :=
  let value := extractValue text html
  let ride : ParsedRide :=
    { platform := tag99, value := value,
      origin := (cap1 (reFirstMatch origin99RE text)).map trimJs,
      destination := (cap1 (reFirstMatch dest99RE text)).map trimJs,
      datetime := date99 text }
  if truthyVal value then some ride else none

/-! ## Database model -/

structure UserRow where
  id : Nat
  email : List Char
  uniqueEmail : List Char
deriving DecidableEq

structure RideRow where
  id : Nat
  userId : Nat
  platform : List Char
  value : ℚ
  origin : Option (List Char)
  destination : Option (List Char)
  datetime : DBDateTime
  rawEmail : Option (List Char)
deriving DecidableEq

structure DB where
  users : List UserRow
  rides : List RideRow
  nextRideId : Nat
deriving DecidableEq

/-- SELECT id FROM users WHERE unique_email equals the argument. -/
def findUserByUnique (db : DB) (e : List Char) : Option UserRow :=
  db.users.find? (fun u => u.uniqueEmail == e)

/-- SELECT id FROM users WHERE email or unique_email equals the argument. -/
def findUserByEither (db : DB) (e : List Char) : Option UserRow :=
  db.users.find? (fun u => u.email == e || u.uniqueEmail == e)

/-! ## The extraction pipeline -/

/-- The two rejection messages of processEmail. -/
def msgExtractFail : List Char :=
  "Não foi possível extrair informações do email".toList

def msgUserNotFound : List Char := "Usuário não encontrado".toList

/-- The parsed mail handed over by MailParser; each part may be absent. -/
structure Mail where
  fromText : Option (List Char)
  subject : Option (List Char)
  text : Option (List Char)
  html : Option (List Char)
deriving DecidableEq

/-- The platform detection and dispatch chain of processEmail: sender or
subject containing uber selects parseUberReceipt, else containing 99
selects parse99Receipt, else no candidate. -/
def extractCandidate (fromL subjL text html : List Char) : Option ParsedRide :=
  if containsSub fromL uberTag || containsSub subjL uberTag then
    parseUberReceipt text html
  else if containsSub fromL tag99 || containsSub subjL tag99 then
    parse99Receipt text html
  else none

inductive Platform where
  | uber
  | n99
deriving DecidableEq

def Platform.tag : Platform → List Char
  | Platform.uber => uberTag
  | Platform.n99 => tag99

/-- The detection chain by itself, as a platform classifier. -/
def detectPlatform (fromL subjL : List Char) : Option Platform :=
  if containsSub fromL uberTag || containsSub subjL uberTag then
    some Platform.uber
  else if containsSub fromL tag99 || containsSub subjL tag99 then
    some Platform.n99
  else none

/-- The value resolved on success: the candidate fields spread together
with the fresh row id (datetime here is the candidate one, before the
insert-time default). -/
structure RideOut where
  platform : List Char
  value : Option ℚ
  origin : Option (List Char)
  destination : Option (List Char)
  datetime : Option JSDate
  rawEmail : List Char
  id : Nat
deriving DecidableEq

/-- processEmail of server.js on the parsed mail: detect and parse; on a
candidate, look up the user by unique email and insert the ride row
(datetime defaulting to now when unset — an Invalid Date is set, hence
not defaulted), resolving the spread candidate; otherwise reject.
Both rejections carry their message; db errors do not occur in this
model. The returned state is the database after the call. -/
def processEmail (mail : Mail) (rawEmail userEmail : List Char) (db : DB)
    (now : JSDate) : Except (List Char) RideOut × DB :=
  let fromL := jsLower (mail.fromText.getD [])
  let subjL := jsLower (mail.subject.getD [])
  let text := mail.text.getD []
  let html := mail.html.getD []
  match extractCandidate fromL subjL text html with
  | none => (Except.error msgExtractFail, db)
  | some ride =>
    match findUserByUnique db userEmail with
    | none => (Except.error msgUserNotFound, db)
    | some u =>
      let row : RideRow :=
        { id := db.nextRideId, userId := u.id, platform := ride.platform,
          value := ride.value.getD 0, origin := ride.origin,
          destination := ride.destination,
          datetime := DBDateTime.date (ride.datetime.getD now),
          rawEmail := some rawEmail }
      (Except.ok
        { platform := ride.platform, value := ride.value,
          origin := ride.origin, destination := ride.destination,
          datetime := ride.datetime, rawEmail := rawEmail,
          id := db.nextRideId },
       { db with rides := db.rides ++ [row], nextRideId := db.nextRideId + 1 })

/-! ## API routes touched by the claims -/

inductive ApiResp (α : Type) where
  | ok (a : α)
  | err (status : Nat) (msg : List Char)
deriving DecidableEq

/-- Body of POST /api/rides; every field may be absent, none is checked. -/
structure ManualRideReq where
  userEmail : List Char
  platform : Option (List Char)
  value : Option ℚ
  origin : Option (List Char)
  destination : Option (List Char)
  datetime : Option (List Char)
deriving DecidableEq

/-- The response of POST /api/rides echoes the request fields plus the
fresh id. -/
structure ManualRideResp where
  id : Nat
  platform : Option (List Char)
  value : Option ℚ
  origin : Option (List Char)
  destination : Option (List Char)
  datetime : Option (List Char)
deriving DecidableEq

def msgNotNullViolation : List Char :=
  "SQLITE_CONSTRAINT: NOT NULL constraint failed: rides".toList

/-- POST /api/rides: resolve the user by either address, then insert the
body fields as given. The only validation is the NOT NULL schema
constraint on platform and value (an absent field binds NULL and the
insert fails with status 500); the value itself — sign included — is
stored unchanged. A falsy datetime (absent or empty string) defaults
to now. -/
def addRideManual (db : DB) (req : ManualRideReq) (now : JSDate) :
    ApiResp ManualRideResp × DB :=
  match findUserByEither db req.userEmail with
  | none => (ApiResp.err 404 msgUserNotFound, db)
  | some u =>
    match req.platform, req.value with
    | some p, some v =>
      let row : RideRow :=
        { id := db.nextRideId, userId := u.id, platform := p, value := v,
          origin := req.origin, destination := req.destination,
          datetime :=
            match req.datetime with
            | some s => if s.isEmpty then DBDateTime.date now else DBDateTime.str s
            | none => DBDateTime.date now,
          rawEmail := none }
      (ApiResp.ok
        { id := db.nextRideId, platform := req.platform, value := req.value,
          origin := req.origin, destination := req.destination,
          datetime := req.datetime },
       { db with rides := db.rides ++ [row], nextRideId := db.nextRideId + 1 })
    | _, _ => (ApiResp.err 500 msgNotNullViolation, db)

structure DeleteResp where
  success : Bool
  deleted : Nat
deriving DecidableEq

/-- DELETE /api/rides/:id — DELETE FROM rides WHERE id = ?; always
responds success with this.changes, the number of rows removed. -/
def deleteRide (db : DB) (rid : Nat) : DeleteResp × DB :=
  let remaining := db.rides.filter (fun r => !(r.id == rid))
  ({ success := true, deleted := db.rides.length - remaining.length },
   { db with rides := remaining })

structure Stats where
  totalSpent : ℚ
  totalRides : Nat
  averageRide : ℚ
  monthSpent : ℚ
  monthRides : Nat
deriving DecidableEq

/-- The month filter of the stats route: getMonth and getFullYear of
new Date(r.datetime) both equal those of now (strict equalities, so an
Invalid Date never matches). -/
def sameMonthAsNow (dt : DBDateTime) (now : JSDate) : Bool :=
  match (jsDateOfValue dt).monthYear, now.monthYear with
  | some (m1, y1), some (m2, y2) => m1 == m2 && y1 == y2
  | _, _ => false

/-- GET /api/stats/:userEmail — totals, count, average (0 when the count
is 0), and the current-month restriction. Read only. -/
def getStats (db : DB) (ue : List Char) (now : JSDate) : ApiResp Stats :=
  match findUserByEither db ue with
  | none => ApiResp.err 404 msgUserNotFound
  | some u =>
    let rides := db.rides.filter (fun r => r.userId == u.id)
    let total := rides.foldl (fun s r => s + r.value) 0
    let count := rides.length
    let avg := if count > 0 then total / (count : ℚ) else 0
    let monthList := rides.filter (fun r => sameMonthAsNow r.datetime now)
    let monthTotal := monthList.foldl (fun s r => s + r.value) 0
    ApiResp.ok
      { totalSpent := total, totalRides := count, averageRide := avg,
        monthSpent := monthTotal, monthRides := monthList.length }

/-! ## Concrete fixtures used by witnesses and counterexamples -/

def user1 : UserRow :=
  { id := 1, email := "alice@example.com".toList,
    uniqueEmail := "corridas-ab12cd@ridetrack.app".toList }

/-- One registered user, no rides yet. -/
def db1 : DB := { users := [user1], rides := [], nextRideId := 1 }

/-- An empty directory. -/
def db0 : DB := { users := [], rides := [], nextRideId := 1 }

def now1 : JSDate := JSDate.mk 2024 5 15

def raw1 : List Char := "raw rfc822 bytes".toList

/-- A well-formed Uber receipt mail. -/
def mailUberOk : Mail :=
  { fromText := some ("Uber Recibos <noreply@uber.com>".toList),
    subject := some ("Sua viagem".toList),
    text := some ("Total: R$ 45,90\nDe: Av. Paulista, 1000 Para: Aeroporto\n12 de maio de 2024".toList),
    html := none }

/-- The candidate parseUberReceipt extracts from mailUberOk. -/
def rideUberOk : ParsedRide :=
  { platform := uberTag, value := some (mkRat 459 10),
    origin := some ("Av. Paulista, 1000".toList),
    destination := some ("Aeroporto".toList),
    datetime := some (JSDate.mk 2024 4 12) }

/-- A mail with no platform marker anywhere, yet a perfectly good fare. -/
def mailNoPlatform : Mail :=
  { fromText := some ("alice@gmail.com".toList),
    subject := some ("recibo de corrida".toList),
    text := some ("Total: R$ 45,90".toList), html := none }

/-- An Uber mail whose bodies carry no currency value. -/
def mailUberNoValue : Mail :=
  { fromText := some ("noreply@uber.com".toList),
    subject := some ("Sua viagem".toList),
    text := some ("obrigado por viajar conosco".toList),
    html := some ("<p>sem valor</p>".toList) }

/-- Month index and day-of-month arguments that denote a real calendar
position under the standard reading (zero-based month in 0..11, day in
1..31); outside it, the Date rollover silently produces a different
date than the written one. -/
def calendarArgsInRange (mi d : Int) : Prop :=
  0 ≤ mi ∧ mi ≤ 11 ∧ 1 ≤ d ∧ d ≤ 31

/-- An Uber receipt body whose month name is not in the table. -/
def textBadMonth : List Char :=
  "Total R$ 19,90 em 15 de Brumaire de 2023".toList

/-- A 99 receipt body with an out-of-range numeric date. -/
def textBadDate99 : List Char :=
  "Valor: R$ 30,00 em 40/13/2023".toList

/-- A 99 receipt body whose fare is written as zero. -/
def textZero99 : List Char :=
  "Corrida 99: R$ 0,00 Origem: Centro\nDestino: Zona Sul\n10/05/2024".toList

/-- A manual-entry body carrying a negative value. -/
def reqNeg : ManualRideReq :=
  { userEmail := user1.email, platform := some uberTag,
    value := some (mkRat (-5) 1), origin := none, destination := none,
    datetime := none }

/-- The row the pipeline inserts for mailUberOk into db1. -/
def rowUberInserted : RideRow :=
  { id := 1, userId := 1, platform := uberTag, value := mkRat 459 10,
    origin := some ("Av. Paulista, 1000".toList),
    destination := some ("Aeroporto".toList),
    datetime := DBDateTime.date (JSDate.mk 2024 4 12),
    rawEmail := some raw1 }

/-! ## Helper lemmas -/

theorem takeWhile_all {p : Char → Bool} {l : List Char}
    (h : ∀ c ∈ l, p c = true) : l.takeWhile p = l := by
  induction l with
  | nil => rfl
  | cons a l ih =>
    have ha : p a = true := h a (by simp)
    simp [List.takeWhile, ha, ih (fun c hc => h c (by simp [hc]))]

theorem takeWhile_append_stop {p : Char → Bool} {l r : List Char} {x : Char}
    (hl : ∀ c ∈ l, p c = true) (hx : p x = false) :
    (l ++ x :: r).takeWhile p = l ∧ (l ++ x :: r).dropWhile p = x :: r := by
  induction l with
  | nil => simp [List.takeWhile, List.dropWhile, hx]
  | cons a l ih =>
    have ha : p a = true := hl a (by simp)
    have hrec := ih (fun c hc => hl c (by simp [hc]))
    simp [List.takeWhile, List.dropWhile, ha, hrec.1, hrec.2]

theorem replaceFirstComma_no_comma {l : List Char} (h : ∀ c ∈ l, ¬ c = ',') :
    replaceFirstComma l = l := by
  induction l with
  | nil => rfl
  | cons a l ih =>
    have ha : ¬ a = ',' := h a (by simp)
    simp [replaceFirstComma, ha, ih (fun c hc => h c (by simp [hc]))]

theorem digit_ne_comma {c : Char} (h : c.isDigit = true) : ¬ c = ',' := by
  intro e
  subst e
  exact absurd h (by decide)

theorem digit_ne_dot {c : Char} (h : c.isDigit = true) : ¬ c = '.' := by
  intro e
  subst e
  exact absurd h (by decide)

theorem replaceFirstComma_digits_comma {d1 rest : List Char}
    (h : ∀ c ∈ d1, c.isDigit = true) :
    replaceFirstComma (d1 ++ ',' :: rest) = d1 ++ '.' :: rest := by
  induction d1 with
  | nil => simp [replaceFirstComma]
  | cons a l ih =>
    have ha : ¬ a = ',' := digit_ne_comma (h a (by simp))
    simp [replaceFirstComma, ha, ih (fun c hc => h c (by simp [hc]))]

theorem isEmpty_false_of_ne_nil {l : List Char} (h : l ≠ []) :
    l.isEmpty = false := by
  cases l with
  | nil => exact absurd rfl h
  | cons a l => rfl

/-- parseFloat, applied after the comma replacement to a numeral of the
two-part canonical shape, yields exactly the denoted decimal. -/
theorem jsParseFloat_canonical {d1 d2 : List Char} {sep : Char}
    (h1 : d1 ≠ []) (hd1 : ∀ c ∈ d1, c.isDigit = true)
    (hd2 : ∀ c ∈ d2, c.isDigit = true)
    (hsep : sep = ',' ∨ sep = '.') :
    jsParseFloat (replaceFirstComma (d1 ++ sep :: d2)) = some (decValue d1 d2) := by
  have hrepl : replaceFirstComma (d1 ++ sep :: d2) = d1 ++ '.' :: d2 := by
    rcases hsep with h | h
    · subst h
      exact replaceFirstComma_digits_comma hd1
    · subst h
      refine replaceFirstComma_no_comma ?_
      intro c hc
      rcases List.mem_append.mp hc with hc1 | hc2
      · exact digit_ne_comma (hd1 c hc1)
      · rcases List.mem_cons.mp hc2 with he | hc3
        · subst he
          decide
        · exact digit_ne_comma (hd2 c hc3)
  rw [hrepl]
  have hsplit := takeWhile_append_stop (r := d2) hd1 (show Char.isDigit '.' = false by decide)
  unfold jsParseFloat
  rw [hsplit.1, hsplit.2]
  simp only
  rw [takeWhile_all hd2]
  simp [isEmpty_false_of_ne_nil h1]

theorem decValue_nonneg (d1 d2 : List Char) : 0 ≤ decValue d1 d2 := by
  refine Rat.mkRat_nonneg ?_ _
  positivity

theorem jsParseFloat_nonneg {cs : List Char} {v : ℚ}
    (h : jsParseFloat cs = some v) : 0 ≤ v := by
  unfold jsParseFloat at h
  split at h
  · dsimp only at h
    split at h
    · exact absurd h (by simp)
    · rw [Option.some_inj] at h
      rw [← h]
      exact decValue_nonneg _ _
  · dsimp only at h
    split at h
    · exact absurd h (by simp)
    · rw [Option.some_inj] at h
      rw [← h]
      exact decValue_nonneg _ _

theorem extractValue_nonneg {t h : List Char} {v : ℚ}
    (he : extractValue t h = some v) : 0 ≤ v := by
  unfold extractValue at he
  split at he
  · exact jsParseFloat_nonneg he
  · exact absurd he (by simp)

theorem truthyVal_iff (o : Option ℚ) :
    truthyVal o = true ↔ ∃ v, o = some v ∧ ¬ v = 0 := by
  cases o with
  | none => simp [truthyVal]
  | some v => simp [truthyVal]

/-- A receipt routine returns its candidate exactly on a truthy value. -/
theorem parseUberReceipt_eq (t h : List Char) :
    parseUberReceipt t h =
      if truthyVal (extractValue t h) then
        some { platform := uberTag, value := extractValue t h,
               origin := (cap1 (reFirstMatch uberRouteRE t)).map trimJs,
               destination := (cap2 (reFirstMatch uberRouteRE t)).map trimJs,
               datetime := uberDate t }
      else none := rfl

theorem parse99Receipt_eq (t h : List Char) :
    parse99Receipt t h =
      if truthyVal (extractValue t h) then
        some { platform := tag99, value := extractValue t h,
               origin := (cap1 (reFirstMatch origin99RE t)).map trimJs,
               destination := (cap1 (reFirstMatch dest99RE t)).map trimJs,
               datetime := date99 t }
      else none := rfl

/-- Soundness of a candidate: its platform is one of the two tags and its
value is a positive extracted number. -/
theorem extractCandidate_sound {fromL subjL text html : List Char}
    {r : ParsedRide} (h : extractCandidate fromL subjL text html = some r) :
    (r.platform = uberTag ∨ r.platform = tag99) ∧
      ∃ v, r.value = some v ∧ 0 < v := by
  unfold extractCandidate at h
  split at h
  · rw [parseUberReceipt_eq] at h
    split at h
    case isTrue ht =>
      rw [Option.some_inj] at h
      obtain ⟨v, hv, hvne⟩ := (truthyVal_iff _).mp ht
      refine ⟨Or.inl (by rw [← h]), v, by rw [← h]; exact hv, ?_⟩
      exact lt_of_le_of_ne (extractValue_nonneg hv) (fun e => hvne e.symm)
    case isFalse => exact absurd h (by simp)
  · split at h
    · rw [parse99Receipt_eq] at h
      split at h
      case isTrue ht =>
        rw [Option.some_inj] at h
        obtain ⟨v, hv, hvne⟩ := (truthyVal_iff _).mp ht
        refine ⟨Or.inr (by rw [← h]), v, by rw [← h]; exact hv, ?_⟩
        exact lt_of_le_of_ne (extractValue_nonneg hv) (fun e => hvne e.symm)
      case isFalse => exact absurd h (by simp)
    · exact absurd h (by simp)

/-! ## Claim C1 -/

/-- C1, amended: an email whose lowercased sender and subject contain
neither platform marker is rejected with the generic message (the same
one used when a platform matched but no fare was extractable — there is
no dedicated platform-not-recognized reason), the store is untouched,
and the outcome does not depend on the bodies: no receipt routine is
invoked. -/
theorem noPlatform_rejects_generic_reason
    (mail : Mail) (raw ue : List Char) (db : DB) (now : JSDate)
    (hf1 : containsSub (jsLower (mail.fromText.getD [])) uberTag = false)
    (hs1 : containsSub (jsLower (mail.subject.getD [])) uberTag = false)
    (hf2 : containsSub (jsLower (mail.fromText.getD [])) tag99 = false)
    (hs2 : containsSub (jsLower (mail.subject.getD [])) tag99 = false) :
    (processEmail mail raw ue db now).1 = Except.error msgExtractFail ∧
    (processEmail mail raw ue db now).2 = db ∧
    ∀ t h, processEmail { mail with text := t, html := h } raw ue db now =
      processEmail mail raw ue db now := by
  have key : ∀ (m2 : Mail), m2.fromText = mail.fromText → m2.subject = mail.subject →
      processEmail m2 raw ue db now = (Except.error msgExtractFail, db) := by
    intro m2 hf hs
    unfold processEmail extractCandidate
    rw [hf, hs]
    simp [hf1, hs1, hf2, hs2]
  refine ⟨?_, ?_, ?_⟩
  · rw [key mail rfl rfl]
  · rw [key mail rfl rfl]
  · intro t h
    rw [key { mail with text := t, html := h } rfl rfl, key mail rfl rfl]

/-- C1 witness at a concrete no-marker email. -/
theorem noPlatform_rejects_generic_reason_wit :
    containsSub (jsLower (mailNoPlatform.fromText.getD [])) uberTag = false ∧
    containsSub (jsLower (mailNoPlatform.subject.getD [])) uberTag = false ∧
    containsSub (jsLower (mailNoPlatform.fromText.getD [])) tag99 = false ∧
    containsSub (jsLower (mailNoPlatform.subject.getD [])) tag99 = false ∧
    (processEmail mailNoPlatform raw1 user1.uniqueEmail db1 now1).1 =
      Except.error msgExtractFail :=
  ⟨rfl, rfl, rfl, rfl,
    (noPlatform_rejects_generic_reason mailNoPlatform raw1 user1.uniqueEmail
      db1 now1 rfl rfl rfl rfl).1⟩

/-- C1 counterexample: an email with no platform marker and an Uber email
with no extractable fare are rejected with the very same reason — the
no-marker rejection is not a distinguishable platform-not-recognized
reason as claimed. -/
theorem noPlatform_reason_not_distinct_cex :
    (processEmail mailNoPlatform raw1 user1.uniqueEmail db1 now1).1 =
      Except.error msgExtractFail ∧
    (processEmail mailUberNoValue raw1 user1.uniqueEmail db1 now1).1 =
      Except.error msgExtractFail :=
  ⟨rfl, rfl⟩

/-! ## Claim C2 -/

/-- C2, amended: processEmail itself persists the finalized record — on a
candidate and a resolved user it appends the ride row to the store
(raw email attached, timestamp defaulted to now only when unset) and
resolves the spread candidate with the fresh id; insertion is not left
to the caller. -/
theorem processEmail_inserts_ride
    (mail : Mail) (raw ue : List Char) (db : DB) (now : JSDate)
    (r : ParsedRide) (u : UserRow)
    (hr : extractCandidate (jsLower (mail.fromText.getD []))
      (jsLower (mail.subject.getD [])) (mail.text.getD [])
      (mail.html.getD []) = some r)
    (hu : findUserByUnique db ue = some u) :
    (processEmail mail raw ue db now).2.rides = db.rides ++
      [{ id := db.nextRideId, userId := u.id, platform := r.platform,
         value := r.value.getD 0, origin := r.origin,
         destination := r.destination,
         datetime := DBDateTime.date (r.datetime.getD now),
         rawEmail := some raw }] ∧
    (processEmail mail raw ue db now).1 = Except.ok
      { platform := r.platform, value := r.value, origin := r.origin,
        destination := r.destination, datetime := r.datetime,
        rawEmail := raw, id := db.nextRideId } := by
  unfold processEmail
  dsimp only
  rw [hr, hu]
  exact ⟨rfl, rfl⟩

/-- C2 witness: the concrete Uber mail makes processEmail itself append
the finalized row. -/
theorem processEmail_inserts_ride_wit :
    extractCandidate (jsLower (mailUberOk.fromText.getD []))
      (jsLower (mailUberOk.subject.getD [])) (mailUberOk.text.getD [])
      (mailUberOk.html.getD []) = some rideUberOk ∧
    findUserByUnique db1 user1.uniqueEmail = some user1 ∧
    (processEmail mailUberOk raw1 user1.uniqueEmail db1 now1).2.rides =
      db1.rides ++
      [{ id := db1.nextRideId, userId := user1.id,
         platform := rideUberOk.platform,
         value := rideUberOk.value.getD 0, origin := rideUberOk.origin,
         destination := rideUberOk.destination,
         datetime := DBDateTime.date (rideUberOk.datetime.getD now1),
         rawEmail := some raw1 }] :=
  ⟨rfl, rfl,
    (processEmail_inserts_ride mailUberOk raw1 user1.uniqueEmail db1 now1
      rideUberOk user1 rfl rfl).1⟩

/-- C2 counterexample: on a successful extraction the ride store after the
call has one more row than before — processEmail did persist. -/
theorem processEmail_side_effect_cex :
    (processEmail mailUberOk raw1 user1.uniqueEmail db1 now1).2.rides.length =
      db1.rides.length + 1 := rfl

/-! ## Claim C3 -/

/-- C3, amended: when the lowercased sender/subject detect a platform and
the first value-regex match (text searched before HTML) captures a
numeral of the claimed shape digits separator digits whose denoted
decimal is nonzero, extraction yields a candidate with that platform
tag and exactly that decimal as value. (For a zero amount such as
R$ 0,00 the routine rejects the candidate, so nonzero is required.) -/
theorem extraction_value_correct
    (fromL subjL text html d1 d2 : List Char) (sep : Char) (p : Platform)
    (hdet : detectPlatform fromL subjL = some p)
    (hcap : (valueCapture text <|> valueCapture html) = some (d1 ++ sep :: d2))
    (h1 : ¬ d1 = []) (_h2 : ¬ d2 = [])
    (hd1 : ∀ c ∈ d1, c.isDigit = true) (hd2 : ∀ c ∈ d2, c.isDigit = true)
    (hsep : sep = ',' ∨ sep = '.')
    (hnz : ¬ decValue d1 d2 = 0) :
    ∃ r, extractCandidate fromL subjL text html = some r ∧
      r.platform = p.tag ∧ r.value = some (decValue d1 d2) := by
  have hv : extractValue text html = some (decValue d1 d2) := by
    unfold extractValue
    rw [hcap]
    exact jsParseFloat_canonical h1 hd1 hd2 hsep
  have ht : truthyVal (extractValue text html) = true := by
    rw [hv]
    simp [truthyVal, hnz]
  unfold detectPlatform at hdet
  unfold extractCandidate
  split at hdet
  case isTrue hc1 =>
    rw [Option.some_inj] at hdet
    rw [if_pos hc1, parseUberReceipt_eq, if_pos ht]
    exact ⟨_, rfl, by rw [← hdet]; rfl, hv⟩
  case isFalse hc1 =>
    split at hdet
    case isTrue hc2 =>
      rw [Option.some_inj] at hdet
      rw [if_neg hc1, if_pos hc2, parse99Receipt_eq, if_pos ht]
      exact ⟨_, rfl, by rw [← hdet]; rfl, hv⟩
    case isFalse => exact absurd hdet (by simp)

/-- C3 witness at the concrete Uber fare R$ 45,90. -/
theorem extraction_value_correct_wit :
    detectPlatform (jsLower ("noreply@uber.com".toList)) [] =
      some Platform.uber ∧
    (valueCapture ("Total: R$ 45,90".toList) <|> valueCapture []) =
      some ("45".toList ++ ',' :: "90".toList) ∧
    ∃ r, extractCandidate (jsLower ("noreply@uber.com".toList)) []
        ("Total: R$ 45,90".toList) [] = some r ∧
      r.platform = Platform.uber.tag ∧
      r.value = some (decValue ("45".toList) ("90".toList)) :=
  ⟨rfl, rfl,
    extraction_value_correct (jsLower ("noreply@uber.com".toList)) []
      ("Total: R$ 45,90".toList) [] ("45".toList) ("90".toList) ',' Platform.uber
      rfl rfl (by decide) (by decide) (by decide) (by decide) (Or.inl rfl)
      (by decide)⟩

/-- C3 counterexample: platform detected and the first matched currency
value is the well-formed numeral 0,00, yet no candidate is produced —
the claim as stated demands a candidate carrying value 0. -/
theorem extraction_zero_value_rejected_cex :
    valueCapture ("Total: R$ 0,00".toList) = some ("0,00".toList) ∧
    detectPlatform (jsLower ("noreply@uber.com".toList)) [] =
      some Platform.uber ∧
    extractCandidate (jsLower ("noreply@uber.com".toList)) []
      ("Total: R$ 0,00".toList) [] = none :=
  ⟨rfl, rfl, rfl⟩

/-! ## Claim C4 -/

/-- C4, amended: a receipt routine returns a candidate exactly when the
value search (text before HTML) found a match whose parsed number is
truthy — non-NaN and nonzero; whether route or date extraction
succeeded is irrelevant either way. A found value of 0 (or a NaN
capture) is rejected, so "a value was found" alone is not enough. -/
theorem parser_candidate_iff_truthy_value (text html : List Char) :
    ((∃ r, parseUberReceipt text html = some r) ↔
      ∃ cap v, (valueCapture text <|> valueCapture html) = some cap ∧
        jsParseFloat (replaceFirstComma cap) = some v ∧ ¬ v = 0) ∧
    ((∃ r, parse99Receipt text html = some r) ↔
      ∃ cap v, (valueCapture text <|> valueCapture html) = some cap ∧
        jsParseFloat (replaceFirstComma cap) = some v ∧ ¬ v = 0) := by
  have key : truthyVal (extractValue text html) = true ↔
      ∃ cap v, (valueCapture text <|> valueCapture html) = some cap ∧
        jsParseFloat (replaceFirstComma cap) = some v ∧ ¬ v = 0 := by
    rw [truthyVal_iff]
    unfold extractValue
    cases hc : (valueCapture text <|> valueCapture html) with
    | none => simp
    | some cap => simp
  constructor
  · constructor
    · rintro ⟨r, hr⟩
      rw [parseUberReceipt_eq] at hr
      split at hr
      case isTrue hth => exact key.mp hth
      case isFalse => exact absurd hr (by simp)
    · intro hrhs
      rw [parseUberReceipt_eq, if_pos (key.mpr hrhs)]
      exact ⟨_, rfl⟩
  · constructor
    · rintro ⟨r, hr⟩
      rw [parse99Receipt_eq] at hr
      split at hr
      case isTrue hth => exact key.mp hth
      case isFalse => exact absurd hr (by simp)
    · intro hrhs
      rw [parse99Receipt_eq, if_pos (key.mpr hrhs)]
      exact ⟨_, rfl⟩

/-- C4 witness: a nonzero fare yields a candidate through the iff. -/
theorem parser_candidate_iff_truthy_value_wit :
    ∃ r, parseUberReceipt ("R$ 7,50".toList) [] = some r :=
  ((parser_candidate_iff_truthy_value ("R$ 7,50".toList) []).1).mpr
    ⟨"7,50".toList, mkRat 750 100, rfl, rfl, by decide⟩

/-- C4 counterexample: the value regex does find the currency value 0,00,
yet the routine returns null — found is not the same as truthy. -/
theorem parser_zero_value_null_cex :
    valueCapture textZero99 = some ("0,00".toList) ∧
    parse99Receipt textZero99 [] = none :=
  ⟨rfl, rfl⟩

/-! ## Claim C5 -/

/-- C5, amended: on an Uber receipt whose textual date matches but whose
month name is not in the table, the candidate timestamp field is set
to an Invalid Date (the undefined month makes the Date constructor
produce NaN), not left unset as claimed. -/
theorem uber_unknown_month_sets_invalid
    (text html dcap mcap ycap : List Char)
    (hm : reFirstMatch uberDateRE text = some [dcap, mcap, ycap])
    (hlook : lookupMonth (jsLower mcap) = none)
    (ht : truthyVal (extractValue text html) = true) :
    ∃ r, parseUberReceipt text html = some r ∧
      r.datetime = some JSDate.invalid := by
  have hd : uberDate text = some JSDate.invalid := by
    unfold uberDate
    rw [hm]
    simp [hlook]
  refine ⟨{ platform := uberTag, value := extractValue text html,
              origin := (cap1 (reFirstMatch uberRouteRE text)).map trimJs,
              destination := (cap2 (reFirstMatch uberRouteRE text)).map trimJs,
              datetime := some JSDate.invalid }, ?_, rfl⟩
  rw [parseUberReceipt_eq, if_pos ht, hd]

/-- C5 witness at the concrete unknown month name Brumaire. -/
theorem uber_unknown_month_sets_invalid_wit :
    reFirstMatch uberDateRE textBadMonth =
      some ["15".toList, "Brumaire".toList, "2023".toList] ∧
    lookupMonth (jsLower ("Brumaire".toList)) = none ∧
    ∃ r, parseUberReceipt textBadMonth [] = some r ∧
      r.datetime = some JSDate.invalid :=
  ⟨rfl, rfl,
    uber_unknown_month_sets_invalid textBadMonth [] ("15".toList)
      ("Brumaire".toList) ("2023".toList) rfl rfl rfl⟩

/-- C5 counterexample: the unknown-month candidate has its datetime field
assigned the Invalid Date — it is not absent as the claim states. -/
theorem uber_unknown_month_not_absent_cex :
    parseUberReceipt textBadMonth [] = some
      { platform := uberTag, value := some (mkRat 199 10), origin := none,
        destination := none, datetime := some JSDate.invalid } :=
  rfl

/-! ## Claim C6 -/

/-- C6: parse99Receipt applies no range validation to the numeric date —
the candidate timestamp is always assigned new Date(year, month - 1,
day) from the positional captures, and when day or month is out of
range the stored constructor arguments lie outside any real calendar
position (the host Date silently rolls them over to a different date
than the written one). -/
theorem date99_no_range_validation
    (text html dcap mcap ycap : List Char)
    (hm : reFirstMatch date99RE text = some [dcap, mcap, ycap])
    (ht : truthyVal (extractValue text html) = true)
    (hout : natOf mcap < 1 ∨ 12 < natOf mcap ∨
      natOf dcap < 1 ∨ 31 < natOf dcap) :
    ∃ r, parse99Receipt text html = some r ∧
      r.datetime = some (jsNewDate (natOf ycap) (natOf mcap - 1) (natOf dcap)) ∧
      ¬ calendarArgsInRange (natOf mcap - 1) (natOf dcap) := by
  have hd : date99 text =
      some (jsNewDate (natOf ycap) (natOf mcap - 1) (natOf dcap)) := by
    unfold date99
    rw [hm]
  refine ⟨{ platform := tag99, value := extractValue text html,
              origin := (cap1 (reFirstMatch origin99RE text)).map trimJs,
              destination := (cap1 (reFirstMatch dest99RE text)).map trimJs,
              datetime := some (jsNewDate (natOf ycap) (natOf mcap - 1)
                (natOf dcap)) },
    ?_, rfl, ?_⟩
  · rw [parse99Receipt_eq, if_pos ht, hd]
  · rintro ⟨hr1, hr2, hr3, hr4⟩
    rcases hout with h | h | h | h <;> omega

/-- C6 witness at the concrete out-of-range date 40/13/2023. -/
theorem date99_no_range_validation_wit :
    reFirstMatch date99RE textBadDate99 =
      some ["40".toList, "13".toList, "2023".toList] ∧
    (natOf ("13".toList) < 1 ∨ 12 < natOf ("13".toList) ∨
      natOf ("40".toList) < 1 ∨ 31 < natOf ("40".toList)) ∧
    ∃ r, parse99Receipt textBadDate99 [] = some r ∧
      r.datetime = some (jsNewDate (natOf ("2023".toList))
        (natOf ("13".toList) - 1) (natOf ("40".toList))) ∧
      ¬ calendarArgsInRange (natOf ("13".toList) - 1) (natOf ("40".toList)) :=
  ⟨rfl, by decide,
    date99_no_range_validation textBadDate99 [] ("40".toList) ("13".toList)
      ("2023".toList) rfl rfl (by decide)⟩

/-! ## Claim C7 -/

/-- C7: when a candidate was extracted but the recipient ingestion address
resolves to no user, processEmail rejects with the user-not-found
message, which differs from the extraction-failure message; and when
extraction fails the result is the extraction-failure message for every
database — the user lookup only happens after extraction succeeded. -/
theorem user_not_found_distinct_after_extraction
    (mail : Mail) (raw ue : List Char) (db : DB) (now : JSDate)
    (r : ParsedRide)
    (hr : extractCandidate (jsLower (mail.fromText.getD []))
      (jsLower (mail.subject.getD [])) (mail.text.getD [])
      (mail.html.getD []) = some r)
    (hu : findUserByUnique db ue = none) :
    (processEmail mail raw ue db now).1 = Except.error msgUserNotFound ∧
    ¬ msgUserNotFound = msgExtractFail ∧
    ∀ (mail2 : Mail) (raw2 ue2 : List Char) (db2 : DB) (now2 : JSDate),
      extractCandidate (jsLower (mail2.fromText.getD []))
        (jsLower (mail2.subject.getD [])) (mail2.text.getD [])
        (mail2.html.getD []) = none →
      (processEmail mail2 raw2 ue2 db2 now2).1 = Except.error msgExtractFail := by
  refine ⟨?_, by decide, ?_⟩
  · unfold processEmail
    dsimp only
    rw [hr, hu]
  · intro mail2 raw2 ue2 db2 now2 h2
    unfold processEmail
    dsimp only
    rw [h2]

/-- C7 witness: the good Uber mail against an empty user directory. -/
theorem user_not_found_distinct_after_extraction_wit :
    extractCandidate (jsLower (mailUberOk.fromText.getD []))
      (jsLower (mailUberOk.subject.getD [])) (mailUberOk.text.getD [])
      (mailUberOk.html.getD []) = some rideUberOk ∧
    findUserByUnique db0 user1.uniqueEmail = none ∧
    (processEmail mailUberOk raw1 user1.uniqueEmail db0 now1).1 =
      Except.error msgUserNotFound :=
  ⟨rfl, rfl,
    (user_not_found_distinct_after_extraction mailUberOk raw1
      user1.uniqueEmail db0 now1 rideUberOk rfl rfl).1⟩

/-! ## Claim C8 -/

/-- C8, amended: every ride row present after a processEmail call either
was already stored or was created by the pipeline, and pipeline rows
always carry one of the two platform tags and a strictly positive
value. (Manual entry, by contrast, enforces no sign restriction — see
the counterexample.) -/
theorem pipeline_rides_platform_positive
    (mail : Mail) (raw ue : List Char) (db : DB) (now : JSDate) (row : RideRow)
    (hrow : row ∈ (processEmail mail raw ue db now).2.rides) :
    row ∈ db.rides ∨
      ((row.platform = uberTag ∨ row.platform = tag99) ∧ 0 < row.value) := by
  unfold processEmail at hrow
  dsimp only at hrow
  cases hE : extractCandidate (jsLower (mail.fromText.getD []))
      (jsLower (mail.subject.getD [])) (mail.text.getD [])
      (mail.html.getD []) with
  | none =>
    rw [hE] at hrow
    exact Or.inl hrow
  | some r =>
    rw [hE] at hrow
    cases hU : findUserByUnique db ue with
    | none =>
      rw [hU] at hrow
      exact Or.inl hrow
    | some u =>
      rw [hU] at hrow
      dsimp only at hrow
      rcases List.mem_append.mp hrow with hin | hnew
      · exact Or.inl hin
      · right
        obtain ⟨hplat, v, hv, hvpos⟩ := extractCandidate_sound hE
        have he := List.mem_singleton.mp hnew
        rw [he]
        refine ⟨hplat, ?_⟩
        dsimp only
        rw [hv]
        exact hvpos

/-- C8 witness: the row inserted for the concrete Uber mail is new and has
the uber tag and the positive value 45,90. -/
theorem pipeline_rides_platform_positive_wit :
    rowUberInserted ∈
      (processEmail mailUberOk raw1 user1.uniqueEmail db1 now1).2.rides ∧
    (rowUberInserted ∈ db1.rides ∨
      ((rowUberInserted.platform = uberTag ∨ rowUberInserted.platform = tag99) ∧
        0 < rowUberInserted.value)) :=
  ⟨by decide,
    pipeline_rides_platform_positive mailUberOk raw1 user1.uniqueEmail db1
      now1 rowUberInserted (by decide)⟩

/-- C8 counterexample: the manual-entry route persists a ride with the
negative value -5 and reports success — the claimed non-negativity
invariant is not preserved by every write. -/
theorem manual_negative_value_persisted_cex :
    (addRideManual db1 reqNeg now1).2.rides.map RideRow.value =
      [mkRat (-5) 1] ∧
    (addRideManual db1 reqNeg now1).1 = ApiResp.ok
      { id := 1, platform := some uberTag, value := some (mkRat (-5) 1),
        origin := none, destination := none, datetime := none } ∧
    mkRat (-5) 1 < 0 :=
  ⟨rfl, rfl, by decide⟩

/-! ## Claim C9 -/

/-- C9: for a resolved user with no stored rides the stats route returns
totals 0, count 0 and average 0 — the average is defined as 0 whenever
the count is 0, so no division by zero occurs. -/
theorem stats_zero_rides_zero_average
    (db : DB) (ue : List Char) (now : JSDate) (u : UserRow)
    (hu : findUserByEither db ue = some u)
    (hempty : db.rides.filter (fun r => r.userId == u.id) = []) :
    getStats db ue now = ApiResp.ok
      { totalSpent := 0, totalRides := 0, averageRide := 0, monthSpent := 0,
        monthRides := 0 } := by
  unfold getStats
  rw [hu]
  dsimp only
  rw [hempty]
  rfl

/-- C9 witness: the registered user of db1 has no rides. -/
theorem stats_zero_rides_zero_average_wit :
    findUserByEither db1 user1.email = some user1 ∧
    db1.rides.filter (fun r => r.userId == user1.id) = [] ∧
    getStats db1 user1.email now1 = ApiResp.ok
      { totalSpent := 0, totalRides := 0, averageRide := 0, monthSpent := 0,
        monthRides := 0 } :=
  ⟨rfl, rfl, stats_zero_rides_zero_average db1 user1.email now1 user1 rfl rfl⟩

/-! ## Claim C10 -/

/-- C10: deleting a ride id that matches no stored ride succeeds with a
deleted count of 0 and leaves the store unchanged. -/
theorem delete_nonexistent_ride_succeeds
    (db : DB) (rid : Nat) (h : ∀ r ∈ db.rides, ¬ r.id = rid) :
    (deleteRide db rid).1 = { success := true, deleted := 0 } ∧
    (deleteRide db rid).2 = db := by
  have hfilter : db.rides.filter (fun r => !(r.id == rid)) = db.rides := by
    refine List.filter_eq_self.mpr ?_
    intro a ha
    simp [h a ha]
  unfold deleteRide
  dsimp only
  rw [hfilter]
  exact ⟨by simp, rfl⟩

/-- C10 witness: deleting id 7 from the store without rides. -/
theorem delete_nonexistent_ride_succeeds_wit :
    (∀ r ∈ db1.rides, ¬ r.id = 7) ∧
    (deleteRide db1 7).1 = { success := true, deleted := 0 } ∧
    (deleteRide db1 7).2 = db1 :=
  ⟨by decide,
    (delete_nonexistent_ride_succeeds db1 7 (by decide)).1,
    (delete_nonexistent_ride_succeeds db1 7 (by decide)).2⟩

end Ridetrack
